import Mathlib

/-!
Shallow embedding of the configurable cache simulator
(src/cache_simulator.cpp) and verification of its specification claims.

The C++ program stores each cache set as a doubly linked `list<CacheBlock>`
ordered from most-recently-used (front) to least-recently-used (back),
together with an `unordered_map<unsigned long, list iterator>` from tag to
the list node holding that tag.  We model a list node as a pair of a node
identifier and a block value; node identifiers are allocated from a counter
`nextId`, which models the stability of list iterators across operations on
other nodes.  The tag map is modelled as an association list from tag to
node identifier with distinct keys (exactly the observable content of the
`unordered_map`).  Machine integers (`unsigned long`, `int`) hold the small
non-negative quantities used here, so they are modelled as `Nat`.
-/

set_option linter.unusedVariables false

namespace CacheSim

/-- One cache block: tag, valid flag, dirty flag.  The C++ default
constructor produces tag 0, valid false, dirty false. -/
structure CacheBlock where
  tag : Nat
  valid : Bool
  dirty : Bool
deriving Repr, DecidableEq

/-- The value produced by the C++ default constructor of CacheBlock. -/
def CacheBlock.init : CacheBlock := ⟨0, false, false⟩

/-- Lookup in the tag map (association list tag -> node id),
modelling blockMap.find(tag). -/
def alookup (m : List (Nat × Nat)) (k : Nat) : Option Nat :=
  (m.find? (fun p => p.1 == k)).map (fun p => p.2)

/-- Removal of a key from the tag map, modelling blockMap.erase(k). -/
def aerase (m : List (Nat × Nat)) (k : Nat) : List (Nat × Nat) :=
  m.filter (fun p => p.1 != k)

/-- Insert-or-update of a key in the tag map, modelling blockMap[k] = v. -/
def aset (m : List (Nat × Nat)) (k v : Nat) : List (Nat × Nat) :=
  (k, v) :: aerase m k

/-- One associative cache set (struct CacheSet): a recency-ordered list of
nodes (front = MRU, back = LRU) and the tag map.  `nextId` supplies a fresh
node identifier for each `push_front`. -/
structure CacheSet where
  nextId : Nat
  blocks : List (Nat × CacheBlock)
  blockMap : List (Nat × Nat)
deriving Repr, DecidableEq

/-- CacheSet::CacheSet(int assoc): the constructor pre-fills the block list
with `assoc` default-constructed blocks; the tag map starts empty. -/
def mkCacheSet (assoc : Nat) : CacheSet :=
  { nextId := assoc
  , blocks := (List.range assoc).map (fun i => (i, CacheBlock.init))
  , blockMap := [] }

/-- CacheSet::findBlock: if the tag is in the map, return the block the
mapped iterator points to, else a miss.  (In the source a mapped iterator
always points to a live node; the node lookup by id models dereferencing
it.) -/
def CacheSet.findBlock (s : CacheSet) (tag : Nat) : Option CacheBlock :=
  match alookup s.blockMap tag with
  | some id => (s.blocks.find? (fun p => p.1 == id)).map (fun p => p.2)
  | none => none

/-- CacheSet::moveToMRU: erase the node the map holds for the block's tag,
push the block's value at the front (a fresh node), and repoint the map at
the new front node.  Callers only pass blocks returned by findBlock, so the
map lookup succeeds there. -/
def CacheSet.moveToMRU (s : CacheSet) (b : CacheBlock) : CacheSet :=
  match alookup s.blockMap b.tag with
  | some id =>
      { nextId := s.nextId + 1
      , blocks := (s.nextId, b) :: s.blocks.filter (fun p => p.1 != id)
      , blockMap := aset s.blockMap b.tag s.nextId }
  | none => s

/-- CacheSet::evictLRU: remove the back (LRU-position) node, erase its tag
from the map, and return the removed block's value.  The source calls
blocks.back() unconditionally; on an empty list that is undefined, hence
the Option. -/
def CacheSet.evictLRU (s : CacheSet) : Option (CacheBlock × CacheSet) :=
  match s.blocks.getLast? with
  | some q =>
      some (q.2, { s with blocks := s.blocks.dropLast
                        , blockMap := aerase s.blockMap q.2.tag })
  | none => none

/-- CacheSet::insertBlock: push the block at the front (a fresh node) and
point the map entry for its tag at the new front node. -/
def CacheSet.insertBlock (s : CacheSet) (b : CacheBlock) : CacheSet :=
  { nextId := s.nextId + 1
  , blocks := (s.nextId, b) :: s.blocks
  , blockMap := aset s.blockMap b.tag s.nextId }

/-- CacheSet::isFull: blockMap.size() == blocks.size(). -/
def CacheSet.isFull (s : CacheSet) : Bool :=
  s.blockMap.length == s.blocks.length

/-- Address decomposition, set index: (address / blockSize) % numSets. -/
def setIndexOf (blockSize numSets address : Nat) : Nat :=
  (address / blockSize) % numSets

/-- Address decomposition, tag: address / (blockSize * numSets). -/
def tagOf (blockSize numSets address : Nat) : Nat :=
  address / (blockSize * numSets)

/-- class Cache: geometry, the vector of sets, and the statistics
counters. -/
structure Cache where
  size : Nat
  assoc : Nat
  blockSize : Nat
  numSets : Nat
  sets : List CacheSet
  numReads : Nat
  numReadMisses : Nat
  numWrites : Nat
  numWriteMisses : Nat
  numWriteBacks : Nat
deriving Repr, DecidableEq

/-- Cache::Cache(size, assoc, blockSize): numSets = size / (assoc *
blockSize) by truncating integer division (the source performs no
divisibility or positivity check), sets = numSets copies of
CacheSet(assoc), counters zero. -/
def mkCache (size assoc blockSize : Nat) : Cache :=
  { size := size
  , assoc := assoc
  , blockSize := blockSize
  , numSets := size / (assoc * blockSize)
  , sets := List.replicate (size / (assoc * blockSize)) (mkCacheSet assoc)
  , numReads := 0
  , numReadMisses := 0
  , numWrites := 0
  , numWriteMisses := 0
  , numWriteBacks := 0 }

/-- The set an address is routed to: sets[setIndex]. -/
def Cache.targetSet (c : Cache) (address : Nat) : CacheSet :=
  c.sets.getD (setIndexOf c.blockSize c.numSets address) (mkCacheSet 0)

/-- Cache::accessCache: decompose the address, look the tag up in the
target set; on a hit move the block to MRU and return it, on a miss return
the cache unchanged.  No statistics counter is touched. -/
def Cache.accessCache (c : Cache) (address : Nat) : Option CacheBlock × Cache :=
  let setIndex := setIndexOf c.blockSize c.numSets address
  let set := c.sets.getD setIndex (mkCacheSet 0)
  match set.findBlock (tagOf c.blockSize c.numSets address) with
  | some b => (some b, { c with sets := c.sets.set setIndex (set.moveToMRU b) })
  | none => (none, c)

/-- CacheSet helper for the write-hit path: the source sets
block->dirty = true through the pointer to the block that moveToMRU has
just repositioned at the front of the list. -/
def CacheSet.setFrontDirty (s : CacheSet) : CacheSet :=
  match s.blocks with
  | [] => s
  | q :: rest => { s with blocks := (q.1, { q.2 with dirty := true }) :: rest }

/-- Cache::writeToCache: on a hit, move to MRU and mark dirty; on a miss,
build a new block (tag, valid, dirty), evict the LRU node first when
isFull() (incrementing numWriteBacks when the evicted block is dirty), then
insert the new block at MRU. -/
def Cache.writeToCache (c : Cache) (address : Nat) : Cache :=
  let setIndex := setIndexOf c.blockSize c.numSets address
  let tag := tagOf c.blockSize c.numSets address
  let set := c.sets.getD setIndex (mkCacheSet 0)
  match set.findBlock tag with
  | some b =>
      { c with sets := c.sets.set setIndex ((set.moveToMRU b).setFrontDirty) }
  | none =>
      let newBlock : CacheBlock := ⟨tag, true, true⟩
      if set.isFull then
        match set.evictLRU with
        | some (evicted, set1) =>
            let c1 := if evicted.dirty
              then { c with numWriteBacks := c.numWriteBacks + 1 }
              else c
            { c1 with sets := c.sets.set setIndex (set1.insertBlock newBlock) }
        | none =>
            -- isFull with an empty list: blocks.back() would be undefined
            -- in the source; unreachable from any constructed cache set.
            { c with sets := c.sets.set setIndex (set.insertBlock newBlock) }
      else
        { c with sets := c.sets.set setIndex (set.insertBlock newBlock) }

/-- class VictimCache: a single fully-associative buffer of numBlocks
nodes, with the same list-plus-map representation as CacheSet. -/
structure VictimCache where
  numBlocks : Nat
  nextId : Nat
  blocks : List (Nat × CacheBlock)
  blockMap : List (Nat × Nat)
deriving Repr, DecidableEq

/-- VictimCache::VictimCache(int numBlocks): pre-fills numBlocks
default-constructed blocks; the tag map starts empty. -/
def mkVictimCache (numBlocks : Nat) : VictimCache :=
  { numBlocks := numBlocks
  , nextId := numBlocks
  , blocks := (List.range numBlocks).map (fun i => (i, CacheBlock.init))
  , blockMap := [] }

/-- VictimCache::findBlock, identical to CacheSet::findBlock. -/
def VictimCache.findBlock (v : VictimCache) (tag : Nat) : Option CacheBlock :=
  match alookup v.blockMap tag with
  | some id => (v.blocks.find? (fun p => p.1 == id)).map (fun p => p.2)
  | none => none

/-- VictimCache::moveToMRU, identical to CacheSet::moveToMRU. -/
def VictimCache.moveToMRU (v : VictimCache) (b : CacheBlock) : VictimCache :=
  match alookup v.blockMap b.tag with
  | some id =>
      { v with nextId := v.nextId + 1
             , blocks := (v.nextId, b) :: v.blocks.filter (fun p => p.1 != id)
             , blockMap := aset v.blockMap b.tag v.nextId }
  | none => v

/-- VictimCache::evictLRU, identical to CacheSet::evictLRU. -/
def VictimCache.evictLRU (v : VictimCache) : Option (CacheBlock × VictimCache) :=
  match v.blocks.getLast? with
  | some q =>
      some (q.2, { v with blocks := v.blocks.dropLast
                        , blockMap := aerase v.blockMap q.2.tag })
  | none => none

/-- VictimCache::insertBlock, identical to CacheSet::insertBlock. -/
def VictimCache.insertBlock (v : VictimCache) (b : CacheBlock) : VictimCache :=
  { v with nextId := v.nextId + 1
         , blocks := (v.nextId, b) :: v.blocks
         , blockMap := aset v.blockMap b.tag v.nextId }

/-- VictimCache::isFull, identical to CacheSet::isFull. -/
def VictimCache.isFull (v : VictimCache) : Bool :=
  v.blockMap.length == v.blocks.length

/-- A trace operation: the simulation loop handles exactly the characters
r and w. -/
inductive Op where
  | r : Op
  | w : Op
deriving Repr, DecidableEq

/-- One parsed trace event (op, hexadecimal address). -/
structure Event where
  op : Op
  address : Nat
deriving Repr, DecidableEq

/-- The state threaded through simulateCacheHierarchy: the L1 cache, the
optional L2 cache, the optional victim cache. -/
structure HierState where
  L1 : Cache
  L2 : Option Cache
  VC : Option VictimCache
deriving Repr, DecidableEq

/-- The body of the while loop of simulateCacheHierarchy for one event.
Read: count the read, probe L1; on a miss count the read miss and, only
when a victim cache exists, probe it by raw address and on a victim miss
probe L2 when it exists (no counter of L2 or of the victim cache is ever
incremented, and nothing is inserted anywhere on the read path).
Write: count the write, probe L1 purely to classify (counting a write miss
on a miss), then unconditionally perform writeToCache. -/
def stepEvent (s : HierState) (e : Event) : HierState :=
  match e.op with
  | Op.r =>
      let L1a := { s.L1 with numReads := s.L1.numReads + 1 }
      match L1a.accessCache e.address with
      | (some _, L1b) => { s with L1 := L1b }
      | (none, L1b) =>
          let L1c := { L1b with numReadMisses := L1b.numReadMisses + 1 }
          match s.VC with
          | some vc =>
              match vc.findBlock e.address with
              | some victimBlock =>
                  -- "Swap with L1 (not fully implemented here for simplicity)"
                  { s with L1 := L1c, VC := some (vc.moveToMRU victimBlock) }
              | none =>
                  match s.L2 with
                  | some l2 => { s with L1 := L1c, L2 := some (l2.accessCache e.address).2 }
                  | none => { s with L1 := L1c }
          | none => { s with L1 := L1c }
  | Op.w =>
      let L1a := { s.L1 with numWrites := s.L1.numWrites + 1 }
      match L1a.accessCache e.address with
      | (some _, L1b) => { s with L1 := L1b.writeToCache e.address }
      | (none, L1b) =>
          let L1c := { L1b with numWriteMisses := L1b.numWriteMisses + 1 }
          { s with L1 := L1c.writeToCache e.address }

/-- simulateCacheHierarchy on an already-parsed trace: fold the loop body
over the events in order. -/
def simulate (s : HierState) (events : List Event) : HierState :=
  events.foldl stepEvent s

/-- Well-formedness of a block list and tag map: node identifiers are
distinct and every map entry points at a live node whose tag is the key.
This is the list-iterator validity that the source maintains implicitly. -/
def ListMapInv (blocks : List (Nat × CacheBlock)) (m : List (Nat × Nat)) : Prop :=
  (blocks.map Prod.fst).Nodup ∧
  ∀ p ∈ m, ∃ q ∈ blocks, q.1 = p.2 ∧ q.2.tag = p.1

instance (blocks : List (Nat × CacheBlock)) (m : List (Nat × Nat)) :
    Decidable (ListMapInv blocks m) := by
  unfold ListMapInv; infer_instance

/-- Mutual consistency of a tag map and a block sequence, as the data-model
invariant states it: every map entry locates a block of the sequence whose
tag is the entry's key, and every valid block's tag has a map entry. -/
def mapSeqConsistent (blocks : List (Nat × CacheBlock)) (m : List (Nat × Nat)) : Prop :=
  (∀ p ∈ m, ∃ q ∈ blocks, q.1 = p.2 ∧ q.2.tag = p.1) ∧
  (∀ q ∈ blocks, q.2.valid = true → ∃ p ∈ m, p.1 = q.2.tag)

instance (blocks : List (Nat × CacheBlock)) (m : List (Nat × Nat)) :
    Decidable (mapSeqConsistent blocks m) := by
  unfold mapSeqConsistent; infer_instance

/-- The L1-only configuration of the end-to-end scenario:
size 1024, associativity 1, block size 32. -/
def specTraceInit : HierState := ⟨mkCache 1024 1 32, none, none⟩

/-- The end-to-end scenario trace r 0, r 20, w 0, r 420 (hex addresses). -/
def specTrace : List Event :=
  [⟨Op.r, 0x0⟩, ⟨Op.r, 0x20⟩, ⟨Op.w, 0x0⟩, ⟨Op.r, 0x420⟩]

/-- Initial state with an L2 cache and no victim cache. -/
def l2NoVcInit : HierState := ⟨mkCache 32 1 32, some (mkCache 64 1 32), none⟩

/-- Initial state for the victim-buffer swap scenario: a one-set one-way L1
and a one-block victim cache. -/
def vcScenarioInit : HierState := ⟨mkCache 32 1 32, none, some (mkVictimCache 1)⟩

/-- Victim-buffer swap scenario trace: two writes that (per the spec) force
an eviction of the first block into the victim buffer, then a read of the
first address. -/
def vcScenarioTrace : List Event := [⟨Op.w, 0x0⟩, ⟨Op.w, 0x20⟩, ⟨Op.r, 0x0⟩]

/-- A full two-way set with two dirty resident blocks (tags 5 and 7). -/
def c1WitnessSet : CacheSet :=
  ⟨2, [(1, ⟨5, true, true⟩), (0, ⟨7, true, true⟩)], [(5, 1), (7, 0)]⟩

/-- The multiset of block values held by a set, forgetting recency order
and node identity. -/
def blockContents (st : CacheSet) : Multiset CacheBlock :=
  (st.blocks.map Prod.snd : List CacheBlock)

/-- The per-set block contents of a whole cache. -/
def cacheContents (c : Cache) : List (Multiset CacheBlock) :=
  c.sets.map blockContents

/-- The multiset of block values held by a victim cache. -/
def vcBlockContents (v : VictimCache) : Multiset CacheBlock :=
  (v.blocks.map Prod.snd : List CacheBlock)

/-- A hierarchy whose L1 consists of the single full set above. -/
def c1WitnessState : HierState :=
  ⟨{ size := 2, assoc := 2, blockSize := 1, numSets := 1, sets := [c1WitnessSet],
     numReads := 0, numReadMisses := 0, numWrites := 0, numWriteMisses := 0,
     numWriteBacks := 0 }, none, none⟩

theorem alookup_mem {m : List (Nat × Nat)} {k v : Nat}
    (h : alookup m k = some v) : (k, v) ∈ m := by
  unfold alookup at h
  cases hf : m.find? (fun p => p.1 == k) with
  | none => rw [hf] at h; cases h
  | some p =>
      rw [hf] at h
      have hp := List.find?_some hf
      have hmem := List.mem_of_find?_eq_some hf
      have h1 : p.1 = k := by simpa using hp
      have h2 : p.2 = v := by simpa using h
      have : (k, v) = p := by cases p; simp_all
      rw [this]; exact hmem

theorem alookup_aset_self (m : List (Nat × Nat)) (k v : Nat) :
    alookup (aset m k v) k = some v := by
  unfold alookup aset
  rw [List.find?_cons_of_pos _ (by simp)]
  rfl

theorem find?_keys_nodup {l : List (Nat × CacheBlock)} {q : Nat × CacheBlock}
    (hnd : (l.map Prod.fst).Nodup) (hq : q ∈ l) :
    l.find? (fun p => p.1 == q.1) = some q := by
  induction l with
  | nil => cases hq
  | cons hd tl ih =>
      rcases List.mem_cons.mp hq with rfl | hq'
      · exact List.find?_cons_of_pos _ (by simp)
      · have hnd' : (tl.map Prod.fst).Nodup := (List.nodup_cons.mp hnd).2
        have hne : hd.1 ≠ q.1 := by
          intro he
          exact (List.nodup_cons.mp hnd).1 (he ▸ List.mem_map_of_mem Prod.fst hq')
        rw [List.find?_cons_of_neg _ (by simpa using hne)]
        exact ih hnd' hq'

theorem find_filter_perm {l : List (Nat × CacheBlock)} {id : Nat} {q : Nat × CacheBlock}
    (hnd : (l.map Prod.fst).Nodup) (hf : l.find? (fun p => p.1 == id) = some q) :
    l.Perm (q :: l.filter (fun p => p.1 != id)) := by
  induction l with
  | nil => cases hf
  | cons hd tl ih =>
      by_cases hh : hd.1 = id
      · have heq : (hd :: tl).find? (fun p => p.1 == id) = some hd :=
          List.find?_cons_of_pos _ (by simp [hh])
        have hq : q = hd := by rw [heq] at hf; exact (Option.some.inj hf).symm
        subst hq
        have hnotin : id ∉ tl.map Prod.fst := by
          have := (List.nodup_cons.mp hnd).1; rwa [hh] at this
        have hfil : tl.filter (fun p => p.1 != id) = tl := by
          rw [List.filter_eq_self]
          intro a ha
          have : a.1 ≠ id := fun he => hnotin (he ▸ List.mem_map_of_mem Prod.fst ha)
          simpa using this
        rw [List.filter_cons_of_neg (by simp [hh]), hfil]
      · have heq : (hd :: tl).find? (fun p => p.1 == id) = tl.find? (fun p => p.1 == id) :=
          List.find?_cons_of_neg _ (by simpa using hh)
        rw [heq] at hf
        have hperm := ih (List.nodup_cons.mp hnd).2 hf
        rw [List.filter_cons_of_pos (by simpa using hh)]
        exact (hperm.cons hd).trans (List.Perm.swap q hd _)

theorem accessCache_counters (c : Cache) (a : Nat) :
    (c.accessCache a).2.numReads = c.numReads ∧
    (c.accessCache a).2.numReadMisses = c.numReadMisses ∧
    (c.accessCache a).2.numWrites = c.numWrites ∧
    (c.accessCache a).2.numWriteMisses = c.numWriteMisses ∧
    (c.accessCache a).2.numWriteBacks = c.numWriteBacks ∧
    (c.accessCache a).2.size = c.size ∧
    (c.accessCache a).2.assoc = c.assoc ∧
    (c.accessCache a).2.blockSize = c.blockSize ∧
    (c.accessCache a).2.numSets = c.numSets := by
  unfold Cache.accessCache
  dsimp only
  split <;> simp

theorem accessCache_miss (c : Cache) (a : Nat)
    (h : (c.targetSet a).findBlock (tagOf c.blockSize c.numSets a) = none) :
    c.accessCache a = (none, c) := by
  unfold Cache.targetSet at h
  unfold Cache.accessCache
  dsimp only
  rw [h]

theorem accessCache_hit (c : Cache) (a : Nat) (b : CacheBlock)
    (h : (c.targetSet a).findBlock (tagOf c.blockSize c.numSets a) = some b) :
    c.accessCache a =
      (some b,
       { c with
          sets := c.sets.set (setIndexOf c.blockSize c.numSets a) ((c.targetSet a).moveToMRU b) }) := by
  unfold Cache.targetSet at h ⊢
  unfold Cache.accessCache
  dsimp only
  rw [h]

end CacheSim

open CacheSim

/-- C2: the address decomposition used by the cache is
setIndex = (address / blockSize) mod numSets and
tag = address / (blockSize * numSets), and two addresses map to the same
(setIndex, tag) pair iff they lie in the same block, i.e. iff
addr1 / blockSize = addr2 / blockSize. -/
theorem address_decomposition_roundtrip (b n a1 a2 : Nat) :
    (setIndexOf b n a1 = (a1 / b) % n ∧ tagOf b n a1 = a1 / (b * n)) ∧
    ((setIndexOf b n a1 = setIndexOf b n a2 ∧ tagOf b n a1 = tagOf b n a2) ↔
      a1 / b = a2 / b) := by
  refine ⟨⟨rfl, rfl⟩, ?_⟩
  unfold setIndexOf tagOf
  constructor
  · rintro ⟨h1, h2⟩
    rw [← Nat.div_div_eq_div_mul, ← Nat.div_div_eq_div_mul] at h2
    calc a1 / b = n * (a1 / b / n) + a1 / b % n := (Nat.div_add_mod _ n).symm
      _ = n * (a2 / b / n) + a2 / b % n := by rw [h1, h2]
      _ = a2 / b := Nat.div_add_mod _ n
  · intro h
    rw [← Nat.div_div_eq_div_mul, ← Nat.div_div_eq_div_mul, h]
    exact ⟨rfl, rfl⟩

/-- C3: counterexample.  Starting from a fresh one-way set, inserting a
valid block with tag 0 and then evicting the LRU (a sequence respecting the
stated preconditions: the set holds one resident block out of
associativity one after the insertion) leaves the set inconsistent: the
eviction pops the constructor's pre-filled placeholder from the back and
erases map key 0, so the valid tag-0 block remains in the sequence while
the tag map is empty. -/
theorem evict_after_insert_breaks_consistency :
    ∃ pr, ((mkCacheSet 1).insertBlock ⟨0, true, false⟩).evictLRU = some pr ∧
      pr.2.blocks = [(1, ⟨0, true, false⟩)] ∧ pr.2.blockMap = [] ∧
      ¬ mapSeqConsistent pr.2.blocks pr.2.blockMap := by
  refine ⟨(⟨0, false, false⟩, ⟨2, [(1, ⟨0, true, false⟩)], []⟩),
    by decide, by decide, by decide, by decide⟩

/-- C4: on the victim-buffer swap scenario (one-block victim buffer,
one-set one-way L1, trace w 0; w 20; r 0) the simulation leaves the victim
buffer in its untouched initial state (no block evicted from L1 is ever
inserted into it, and no swap with L1 happens), and the final read hits in
L1 because L1 never evicted at all. -/
theorem victim_swap_not_implemented :
    (simulate vcScenarioInit vcScenarioTrace).VC = some (mkVictimCache 1) ∧
    (simulate vcScenarioInit vcScenarioTrace).L1.numReadMisses = 0 := by
  decide

/-- C5: with an L2 cache configured and no victim buffer, a read that
misses in L1 leaves the L2 cache bit-identical to its initial state: L2 is
not consulted at all (the L2 probe sits inside the victim-buffer branch),
and its read/read-miss counters stay zero. -/
theorem l2_not_consulted_without_vc :
    (simulate l2NoVcInit [⟨Op.r, 0⟩]).L1.numReadMisses = 1 ∧
    (simulate l2NoVcInit [⟨Op.r, 0⟩]).L2 = some (mkCache 64 1 32) := by
  decide

/-- C7: counterexample.  On the end-to-end scenario (L1 size 1024,
associativity 1, block size 32; trace r 0, r 20, w 0, r 420) the program
does not produce the claimed counters reads=3, read-misses=2, writes=1,
write-misses=0. -/
theorem spec_trace_claimed_counters_false :
    ¬ ((simulate specTraceInit specTrace).L1.numReads = 3 ∧
       (simulate specTraceInit specTrace).L1.numReadMisses = 2 ∧
       (simulate specTraceInit specTrace).L1.numWrites = 1 ∧
       (simulate specTraceInit specTrace).L1.numWriteMisses = 0) := by
  decide

/-- C7 amended: the end-to-end scenario produces reads=3, read-misses=3,
writes=1, write-misses=1 (reads never allocate, so the write to address 0
and the final read both miss). -/
theorem spec_trace_actual_counters :
    (simulate specTraceInit specTrace).L1.numReads = 3 ∧
    (simulate specTraceInit specTrace).L1.numReadMisses = 3 ∧
    (simulate specTraceInit specTrace).L1.numWrites = 1 ∧
    (simulate specTraceInit specTrace).L1.numWriteMisses = 1 := by
  decide

/-- C8: counterexample.  With size 1000, associativity 1, block size 32
(1000 is not divisible by 32) no configuration error is raised: the
constructor truncates numSets to 31, so size differs from
numSets * associativity * blockSize, and the simulation still processes
events with this cache. -/
theorem config_validation_absent :
    (mkCache 1000 1 32).numSets * 1 * 32 ≠ 1000 ∧
    (simulate ⟨mkCache 1000 1 32, none, none⟩ [⟨Op.r, 0⟩]).L1.numReads = 1 := by
  decide

namespace CacheSim

theorem findBlock_destruct (st : CacheSet) (t : Nat) (b : CacheBlock)
    (h : st.findBlock t = some b) :
    ∃ id q, alookup st.blockMap t = some id ∧
      st.blocks.find? (fun p => p.1 == id) = some q ∧ q.2 = b := by
  unfold CacheSet.findBlock at h
  cases hl : alookup st.blockMap t with
  | none => rw [hl] at h; cases h
  | some id =>
      rw [hl] at h
      dsimp only at h
      cases hf : st.blocks.find? (fun p => p.1 == id) with
      | none => rw [hf] at h; cases h
      | some q =>
          rw [hf] at h
          exact ⟨id, q, rfl, hf, by simpa using h⟩

theorem findBlock_tag (st : CacheSet) (t : Nat) (b : CacheBlock)
    (hinv : ListMapInv st.blocks st.blockMap)
    (h : st.findBlock t = some b) : b.tag = t := by
  obtain ⟨id, q, hl, hf, hb⟩ := findBlock_destruct st t b h
  obtain ⟨q', hq'mem, hq'1, hq'tag⟩ := hinv.2 _ (alookup_mem hl)
  have hfind := find?_keys_nodup hinv.1 hq'mem
  rw [hq'1] at hfind
  rw [hfind] at hf
  have : q' = q := Option.some.inj hf
  rw [← hb, ← this]
  exact hq'tag

theorem moveToMRU_snd_perm (st : CacheSet) (t : Nat) (b : CacheBlock)
    (hinv : ListMapInv st.blocks st.blockMap)
    (h : st.findBlock t = some b) :
    ((st.moveToMRU b).blocks.map Prod.snd).Perm (st.blocks.map Prod.snd) := by
  obtain ⟨id, q, hl, hf, hb⟩ := findBlock_destruct st t b h
  have htag : b.tag = t := findBlock_tag st t b hinv h
  unfold CacheSet.moveToMRU
  rw [htag, hl]
  dsimp only
  have hperm := find_filter_perm hinv.1 hf
  have := (hperm.map Prod.snd).symm
  simpa [hb] using this

theorem findBlock_moveToMRU_self (st : CacheSet) (t : Nat) (b : CacheBlock)
    (hinv : ListMapInv st.blocks st.blockMap)
    (h : st.findBlock t = some b) :
    (st.moveToMRU b).findBlock t = some b := by
  obtain ⟨id, q, hl, hf, hb⟩ := findBlock_destruct st t b h
  have htag : b.tag = t := findBlock_tag st t b hinv h
  unfold CacheSet.moveToMRU
  rw [htag, hl]
  unfold CacheSet.findBlock
  dsimp only
  rw [alookup_aset_self]
  dsimp only
  rw [List.find?_cons_of_pos _ (by simp)]
  rfl

theorem getD_set_self {α : Type} (l : List α) (i : Nat) (x d : α) (h : i < l.length) :
    (l.set i x).getD i d = x := by
  induction l generalizing i with
  | nil => simp at h
  | cons hd tl ih =>
      cases i with
      | zero => rfl
      | succ n => exact ih n (Nat.lt_of_succ_lt_succ h)

theorem hit_index_lt (c : Cache) (a : Nat) (b : CacheBlock)
    (h : (c.targetSet a).findBlock (tagOf c.blockSize c.numSets a) = some b) :
    setIndexOf c.blockSize c.numSets a < c.sets.length := by
  by_contra hnot
  push_neg at hnot
  have hdef : c.targetSet a = mkCacheSet 0 := by
    unfold Cache.targetSet
    exact List.getD_eq_default _ _ hnot
  rw [hdef] at h
  have hnone : (mkCacheSet 0).findBlock (tagOf c.blockSize c.numSets a) = none := rfl
  rw [hnone] at h
  cases h

theorem writeToCache_other_counters (c : Cache) (a : Nat) :
    (c.writeToCache a).numReads = c.numReads ∧
    (c.writeToCache a).numReadMisses = c.numReadMisses ∧
    (c.writeToCache a).numWrites = c.numWrites ∧
    (c.writeToCache a).numWriteMisses = c.numWriteMisses ∧
    (c.writeToCache a).size = c.size ∧
    (c.writeToCache a).assoc = c.assoc ∧
    (c.writeToCache a).blockSize = c.blockSize ∧
    (c.writeToCache a).numSets = c.numSets := by
  unfold Cache.writeToCache
  dsimp only
  split
  · simp
  · split
    · split
      · split <;> simp
      · simp
    · simp

theorem writeToCache_hit (c : Cache) (a : Nat) (b : CacheBlock)
    (h : (c.targetSet a).findBlock (tagOf c.blockSize c.numSets a) = some b) :
    (c.writeToCache a).numWriteBacks = c.numWriteBacks ∧
    (c.writeToCache a).sets =
      c.sets.set (setIndexOf c.blockSize c.numSets a)
        (((c.targetSet a).moveToMRU b).setFrontDirty) := by
  unfold Cache.targetSet at h ⊢
  unfold Cache.writeToCache
  dsimp only
  rw [h]
  exact ⟨rfl, rfl⟩

theorem writeToCache_miss_notfull (c : Cache) (a : Nat)
    (h : (c.targetSet a).findBlock (tagOf c.blockSize c.numSets a) = none)
    (hful : (c.targetSet a).isFull = false) :
    (c.writeToCache a).numWriteBacks = c.numWriteBacks ∧
    (c.writeToCache a).sets =
      c.sets.set (setIndexOf c.blockSize c.numSets a)
        ((c.targetSet a).insertBlock ⟨tagOf c.blockSize c.numSets a, true, true⟩) := by
  unfold Cache.targetSet at h hful ⊢
  unfold Cache.writeToCache
  dsimp only
  rw [h, hful]
  dsimp only
  exact ⟨rfl, rfl⟩

theorem writeToCache_miss_full (c : Cache) (a : Nat) (q : Nat × CacheBlock)
    (h : (c.targetSet a).findBlock (tagOf c.blockSize c.numSets a) = none)
    (hful : (c.targetSet a).isFull = true)
    (hq : (c.targetSet a).blocks.getLast? = some q) :
    (c.targetSet a).evictLRU =
      some (q.2, ⟨(c.targetSet a).nextId, (c.targetSet a).blocks.dropLast,
                  aerase (c.targetSet a).blockMap q.2.tag⟩) ∧
    ((c.writeToCache a).numWriteBacks =
      if q.2.dirty then c.numWriteBacks + 1 else c.numWriteBacks) ∧
    (c.writeToCache a).sets =
      c.sets.set (setIndexOf c.blockSize c.numSets a)
        ((⟨(c.targetSet a).nextId, (c.targetSet a).blocks.dropLast,
           aerase (c.targetSet a).blockMap q.2.tag⟩ : CacheSet).insertBlock
          ⟨tagOf c.blockSize c.numSets a, true, true⟩) := by
  have hev : (c.targetSet a).evictLRU =
      some (q.2, ⟨(c.targetSet a).nextId, (c.targetSet a).blocks.dropLast,
                  aerase (c.targetSet a).blockMap q.2.tag⟩) := by
    unfold CacheSet.evictLRU
    rw [hq]
  refine ⟨hev, ?_⟩
  unfold Cache.targetSet at h hful hev ⊢
  unfold Cache.writeToCache
  dsimp only
  rw [h, hful]
  dsimp only
  rw [hev]
  dsimp only
  cases hd : q.2.dirty <;> simp [hd]

theorem stepEvent_w_miss (s : HierState) (addr : Nat)
    (h : (s.L1.targetSet addr).findBlock (tagOf s.L1.blockSize s.L1.numSets addr) = none) :
    (stepEvent s ⟨Op.w, addr⟩).L1 =
      Cache.writeToCache { s.L1 with numWrites := s.L1.numWrites + 1, numWriteMisses := s.L1.numWriteMisses + 1 } addr ∧
    (stepEvent s ⟨Op.w, addr⟩).L2 = s.L2 ∧
    (stepEvent s ⟨Op.w, addr⟩).VC = s.VC := by
  unfold stepEvent
  dsimp only
  rw [accessCache_miss ({ s.L1 with numWrites := s.L1.numWrites + 1 } : Cache) addr h]
  exact ⟨rfl, rfl, rfl⟩

theorem stepEvent_w_hit (s : HierState) (addr : Nat) (b : CacheBlock)
    (h : (s.L1.targetSet addr).findBlock (tagOf s.L1.blockSize s.L1.numSets addr) = some b) :
    (stepEvent s ⟨Op.w, addr⟩).L1 =
      Cache.writeToCache { s.L1 with numWrites := s.L1.numWrites + 1, sets := s.L1.sets.set (setIndexOf s.L1.blockSize s.L1.numSets addr) ((s.L1.targetSet addr).moveToMRU b) } addr ∧
    (stepEvent s ⟨Op.w, addr⟩).L2 = s.L2 ∧
    (stepEvent s ⟨Op.w, addr⟩).VC = s.VC := by
  unfold stepEvent
  dsimp only
  rw [accessCache_hit ({ s.L1 with numWrites := s.L1.numWrites + 1 } : Cache) addr b h]
  exact ⟨rfl, rfl, rfl⟩



/-- C1: for a write event at any hierarchy state whose target L1 set is
well-formed, the L1 write counter increments by exactly one; the write-miss
counter increments by exactly one iff the tag is not resident at the start
of the event; the mutating write then runs unconditionally: on a miss into
a full set the block in the LRU position (the back of the recency list) is
evicted first, numWriteBacks increments by exactly one iff that evicted
block was dirty (never on a clean eviction), and the new block is inserted
most-recently-used with dirty = true; on a miss into a non-full set the new
dirty block is inserted with no write-back; on a hit numWriteBacks is
untouched. -/
theorem write_event_spec (s : HierState) (addr : Nat)
    (hinv : ListMapInv (s.L1.targetSet addr).blocks (s.L1.targetSet addr).blockMap) :
    (stepEvent s ⟨Op.w, addr⟩).L1.numWrites = s.L1.numWrites + 1 ∧
    (stepEvent s ⟨Op.w, addr⟩).L1.numWriteMisses =
      (if ((s.L1.targetSet addr).findBlock (tagOf s.L1.blockSize s.L1.numSets addr)).isSome
       then s.L1.numWriteMisses else s.L1.numWriteMisses + 1) ∧
    (((s.L1.targetSet addr).findBlock (tagOf s.L1.blockSize s.L1.numSets addr)).isSome →
      (stepEvent s ⟨Op.w, addr⟩).L1.numWriteBacks = s.L1.numWriteBacks) ∧
    ((s.L1.targetSet addr).findBlock (tagOf s.L1.blockSize s.L1.numSets addr) = none →
      (s.L1.targetSet addr).isFull = false →
        (stepEvent s ⟨Op.w, addr⟩).L1.numWriteBacks = s.L1.numWriteBacks ∧
        (stepEvent s ⟨Op.w, addr⟩).L1.sets =
          s.L1.sets.set (setIndexOf s.L1.blockSize s.L1.numSets addr)
            ((s.L1.targetSet addr).insertBlock
              ⟨tagOf s.L1.blockSize s.L1.numSets addr, true, true⟩)) ∧
    ((s.L1.targetSet addr).findBlock (tagOf s.L1.blockSize s.L1.numSets addr) = none →
      (s.L1.targetSet addr).isFull = true →
      ∀ q, (s.L1.targetSet addr).blocks.getLast? = some q →
        (s.L1.targetSet addr).evictLRU =
          some (q.2, ⟨(s.L1.targetSet addr).nextId, (s.L1.targetSet addr).blocks.dropLast,
                      aerase (s.L1.targetSet addr).blockMap q.2.tag⟩) ∧
        ((stepEvent s ⟨Op.w, addr⟩).L1.numWriteBacks =
          if q.2.dirty then s.L1.numWriteBacks + 1 else s.L1.numWriteBacks) ∧
        (stepEvent s ⟨Op.w, addr⟩).L1.sets =
          s.L1.sets.set (setIndexOf s.L1.blockSize s.L1.numSets addr)
            ((⟨(s.L1.targetSet addr).nextId, (s.L1.targetSet addr).blocks.dropLast,
               aerase (s.L1.targetSet addr).blockMap q.2.tag⟩ : CacheSet).insertBlock
              ⟨tagOf s.L1.blockSize s.L1.numSets addr, true, true⟩)) := by
  cases hfb : (s.L1.targetSet addr).findBlock (tagOf s.L1.blockSize s.L1.numSets addr) with
  | none =>
      obtain ⟨hL1, hL2x, hVCx⟩ := stepEvent_w_miss s addr hfb
      refine ⟨?_, ?_, ?_, ?_, ?_⟩
      · rw [hL1]
        exact (writeToCache_other_counters _ addr).2.2.1
      · simp only [Option.isSome_none, Bool.false_eq_true, if_false]
        rw [hL1]
        exact (writeToCache_other_counters _ addr).2.2.2.1
      · intro hsome
        simp at hsome
      · intro _ hful
        have hw := writeToCache_miss_notfull
          ({ s.L1 with numWrites := s.L1.numWrites + 1, numWriteMisses := s.L1.numWriteMisses + 1 } : Cache)
          addr hfb hful
        exact ⟨by rw [hL1]; exact hw.1, by rw [hL1]; exact hw.2⟩
      · intro _ hful q hq
        have hw := writeToCache_miss_full
          ({ s.L1 with numWrites := s.L1.numWrites + 1, numWriteMisses := s.L1.numWriteMisses + 1 } : Cache)
          addr q hfb hful hq
        exact ⟨hw.1, by rw [hL1]; exact hw.2.1, by rw [hL1]; exact hw.2.2⟩
  | some b =>
      have hi : setIndexOf s.L1.blockSize s.L1.numSets addr < s.L1.sets.length :=
        hit_index_lt s.L1 addr b hfb
      obtain ⟨hL1, hL2x, hVCx⟩ := stepEvent_w_hit s addr b hfb
      have hts2 : (({ s.L1 with numWrites := s.L1.numWrites + 1, sets := s.L1.sets.set (setIndexOf s.L1.blockSize s.L1.numSets addr) ((s.L1.targetSet addr).moveToMRU b) } : Cache)).targetSet addr =
          (s.L1.targetSet addr).moveToMRU b := by
        unfold Cache.targetSet
        exact getD_set_self _ _ _ _ hi
      have hfb2 : ((({ s.L1 with numWrites := s.L1.numWrites + 1, sets := s.L1.sets.set (setIndexOf s.L1.blockSize s.L1.numSets addr) ((s.L1.targetSet addr).moveToMRU b) } : Cache)).targetSet addr).findBlock
          (tagOf s.L1.blockSize s.L1.numSets addr) = some b := by
        rw [hts2]
        exact findBlock_moveToMRU_self _ _ _ hinv hfb
      refine ⟨?_, ?_, ?_, ?_, ?_⟩
      · rw [hL1]
        exact (writeToCache_other_counters _ addr).2.2.1
      · simp only [Option.isSome_some, if_true]
        rw [hL1]
        exact (writeToCache_other_counters _ addr).2.2.2.1
      · intro _
        rw [hL1]
        exact (writeToCache_hit _ addr b hfb2).1
      · intro hnone
        exact absurd hnone (by simp)
      · intro hnone
        exact absurd hnone (by simp)



theorem write_event_spec_witness :
    (stepEvent c1WitnessState ⟨Op.w, 3⟩).L1.numWrites = 1 ∧
    (stepEvent c1WitnessState ⟨Op.w, 3⟩).L1.numWriteMisses = 1 ∧
    (stepEvent c1WitnessState ⟨Op.w, 3⟩).L1.numWriteBacks = 1 := by
  obtain ⟨h1, h2, h3, h4, h5⟩ := write_event_spec c1WitnessState 3 (by decide)
  obtain ⟨hev, hwb, hsets⟩ := h5 (by decide) (by decide) (0, ⟨7, true, true⟩) (by decide)
  refine ⟨?_, ?_, ?_⟩
  · rw [h1]; decide
  · rw [h2]; decide
  · rw [hwb]; decide

end CacheSim

namespace CacheSim

theorem stepEvent_r_hit (s : HierState) (addr : Nat) (b : CacheBlock)
    (h : (s.L1.targetSet addr).findBlock (tagOf s.L1.blockSize s.L1.numSets addr) = some b) :
    (stepEvent s ⟨Op.r, addr⟩).L1 =
      { s.L1 with numReads := s.L1.numReads + 1, sets := s.L1.sets.set (setIndexOf s.L1.blockSize s.L1.numSets addr) ((s.L1.targetSet addr).moveToMRU b) } ∧
    (stepEvent s ⟨Op.r, addr⟩).L2 = s.L2 ∧
    (stepEvent s ⟨Op.r, addr⟩).VC = s.VC := by
  unfold stepEvent
  dsimp only
  rw [accessCache_hit ({ s.L1 with numReads := s.L1.numReads + 1 } : Cache) addr b h]
  exact ⟨rfl, rfl, rfl⟩

theorem stepEvent_r_miss_noVC (s : HierState) (addr : Nat)
    (h : (s.L1.targetSet addr).findBlock (tagOf s.L1.blockSize s.L1.numSets addr) = none)
    (hvc : s.VC = none) :
    (stepEvent s ⟨Op.r, addr⟩).L1 =
      { s.L1 with numReads := s.L1.numReads + 1, numReadMisses := s.L1.numReadMisses + 1 } ∧
    (stepEvent s ⟨Op.r, addr⟩).L2 = s.L2 ∧
    (stepEvent s ⟨Op.r, addr⟩).VC = s.VC := by
  unfold stepEvent
  dsimp only
  rw [accessCache_miss ({ s.L1 with numReads := s.L1.numReads + 1 } : Cache) addr h]
  dsimp only
  rw [hvc]
  dsimp only
  exact ⟨rfl, rfl, rfl⟩

theorem stepEvent_r_miss_vcHit (s : HierState) (addr : Nat) (vc : VictimCache) (vb : CacheBlock)
    (h : (s.L1.targetSet addr).findBlock (tagOf s.L1.blockSize s.L1.numSets addr) = none)
    (hvc : s.VC = some vc) (hvb : vc.findBlock addr = some vb) :
    (stepEvent s ⟨Op.r, addr⟩).L1 =
      { s.L1 with numReads := s.L1.numReads + 1, numReadMisses := s.L1.numReadMisses + 1 } ∧
    (stepEvent s ⟨Op.r, addr⟩).L2 = s.L2 ∧
    (stepEvent s ⟨Op.r, addr⟩).VC = some (vc.moveToMRU vb) := by
  unfold stepEvent
  dsimp only
  rw [accessCache_miss ({ s.L1 with numReads := s.L1.numReads + 1 } : Cache) addr h]
  dsimp only
  rw [hvc]
  dsimp only
  rw [hvb]
  exact ⟨rfl, rfl, rfl⟩

theorem stepEvent_r_miss_vcMiss_L2 (s : HierState) (addr : Nat) (vc : VictimCache) (l2 : Cache)
    (h : (s.L1.targetSet addr).findBlock (tagOf s.L1.blockSize s.L1.numSets addr) = none)
    (hvc : s.VC = some vc) (hvb : vc.findBlock addr = none) (hl2 : s.L2 = some l2) :
    (stepEvent s ⟨Op.r, addr⟩).L1 =
      { s.L1 with numReads := s.L1.numReads + 1, numReadMisses := s.L1.numReadMisses + 1 } ∧
    (stepEvent s ⟨Op.r, addr⟩).L2 = some (l2.accessCache addr).2 ∧
    (stepEvent s ⟨Op.r, addr⟩).VC = s.VC := by
  unfold stepEvent
  dsimp only
  rw [accessCache_miss ({ s.L1 with numReads := s.L1.numReads + 1 } : Cache) addr h]
  dsimp only
  rw [hvc]
  dsimp only
  rw [hvb]
  dsimp only
  rw [hl2]
  dsimp only
  exact ⟨rfl, rfl, rfl⟩

theorem stepEvent_r_miss_vcMiss_noL2 (s : HierState) (addr : Nat) (vc : VictimCache)
    (h : (s.L1.targetSet addr).findBlock (tagOf s.L1.blockSize s.L1.numSets addr) = none)
    (hvc : s.VC = some vc) (hvb : vc.findBlock addr = none) (hl2 : s.L2 = none) :
    (stepEvent s ⟨Op.r, addr⟩).L1 =
      { s.L1 with numReads := s.L1.numReads + 1, numReadMisses := s.L1.numReadMisses + 1 } ∧
    (stepEvent s ⟨Op.r, addr⟩).L2 = s.L2 ∧
    (stepEvent s ⟨Op.r, addr⟩).VC = s.VC := by
  unfold stepEvent
  dsimp only
  rw [accessCache_miss ({ s.L1 with numReads := s.L1.numReads + 1 } : Cache) addr h]
  dsimp only
  rw [hvc]
  dsimp only
  rw [hvb]
  dsimp only
  rw [hl2]
  dsimp only
  exact ⟨rfl, rfl, rfl⟩



theorem map_set_eq_of_eq {α β : Type} (f : α → β) (l : List α) (i : Nat) (x d : α)
    (hi : i < l.length) (hfx : f x = f (l.getD i d)) :
    (l.set i x).map f = l.map f := by
  induction l generalizing i with
  | nil => simp at hi
  | cons hd tl ih =>
      cases i with
      | zero =>
          show f x :: tl.map f = f hd :: tl.map f
          rw [hfx]; rfl
      | succ n =>
          show f hd :: ((tl.set n x).map f) = f hd :: tl.map f
          rw [ih n (Nat.lt_of_succ_lt_succ hi) hfx]

theorem getD_mem_or_eq {α : Type} (l : List α) (i : Nat) (d : α) :
    l.getD i d ∈ l ∨ l.getD i d = d := by
  induction l generalizing i with
  | nil => right; rfl
  | cons hd tl ih =>
      cases i with
      | zero => left; exact List.mem_cons_self _ _
      | succ n =>
          rcases ih n with hm | he
          · left; exact List.mem_cons_of_mem _ hm
          · right; exact he

theorem findBlock_empty_map (st : CacheSet) (h : st.blockMap = []) (t : Nat) :
    st.findBlock t = none := by
  unfold CacheSet.findBlock
  rw [h]
  rfl

theorem vc_findBlock_empty_map (v : VictimCache) (h : v.blockMap = []) (t : Nat) :
    v.findBlock t = none := by
  unfold VictimCache.findBlock
  rw [h]
  rfl

theorem targetSet_empty_map (c : Cache) (a : Nat)
    (h : ∀ st ∈ c.sets, st.blockMap = []) :
    (c.targetSet a).blockMap = [] := by
  unfold Cache.targetSet
  rcases getD_mem_or_eq c.sets (setIndexOf c.blockSize c.numSets a) (mkCacheSet 0) with hm | he
  · exact h _ hm
  · rw [he]; rfl

theorem accessCache_of_empty_maps (c : Cache) (a : Nat)
    (h : ∀ st ∈ c.sets, st.blockMap = []) :
    c.accessCache a = (none, c) :=
  accessCache_miss c a (findBlock_empty_map _ (targetSet_empty_map c a h) _)

theorem stepEvent_r_miss_L1 (s : HierState) (addr : Nat)
    (h : (s.L1.targetSet addr).findBlock (tagOf s.L1.blockSize s.L1.numSets addr) = none) :
    (stepEvent s ⟨Op.r, addr⟩).L1 =
      { s.L1 with numReads := s.L1.numReads + 1, numReadMisses := s.L1.numReadMisses + 1 } := by
  unfold stepEvent
  dsimp only
  rw [accessCache_miss ({ s.L1 with numReads := s.L1.numReads + 1 } : Cache) addr h]
  dsimp only
  cases hvc : s.VC with
  | none => rfl
  | some vc =>
      dsimp only
      cases hvb : vc.findBlock addr with
      | some vb => rfl
      | none =>
          dsimp only
          cases hl2 : s.L2 with
          | some l2 => rfl
          | none => rfl

theorem vc_findBlock_destruct (v : VictimCache) (t : Nat) (b : CacheBlock)
    (h : v.findBlock t = some b) :
    ∃ id q, alookup v.blockMap t = some id ∧
      v.blocks.find? (fun p => p.1 == id) = some q ∧ q.2 = b := by
  unfold VictimCache.findBlock at h
  cases hl : alookup v.blockMap t with
  | none => rw [hl] at h; cases h
  | some id =>
      rw [hl] at h
      dsimp only at h
      cases hf : v.blocks.find? (fun p => p.1 == id) with
      | none => rw [hf] at h; cases h
      | some q =>
          rw [hf] at h
          exact ⟨id, q, rfl, hf, by simpa using h⟩

theorem vc_findBlock_tag (v : VictimCache) (t : Nat) (b : CacheBlock)
    (hinv : ListMapInv v.blocks v.blockMap)
    (h : v.findBlock t = some b) : b.tag = t := by
  obtain ⟨id, q, hl, hf, hb⟩ := vc_findBlock_destruct v t b h
  obtain ⟨q', hq'mem, hq'1, hq'tag⟩ := hinv.2 _ (alookup_mem hl)
  have hfind := find?_keys_nodup hinv.1 hq'mem
  rw [hq'1] at hfind
  rw [hfind] at hf
  have : q' = q := Option.some.inj hf
  rw [← hb, ← this]
  exact hq'tag

theorem vc_moveToMRU_snd_perm (v : VictimCache) (t : Nat) (b : CacheBlock)
    (hinv : ListMapInv v.blocks v.blockMap)
    (h : v.findBlock t = some b) :
    ((v.moveToMRU b).blocks.map Prod.snd).Perm (v.blocks.map Prod.snd) := by
  obtain ⟨id, q, hl, hf, hb⟩ := vc_findBlock_destruct v t b h
  have htag : b.tag = t := vc_findBlock_tag v t b hinv h
  unfold VictimCache.moveToMRU
  rw [htag, hl]
  dsimp only
  have hperm := find_filter_perm hinv.1 hf
  have := (hperm.map Prod.snd).symm
  simpa [hb] using this

theorem accessCache_contents (c : Cache) (a : Nat)
    (hinv : ListMapInv (c.targetSet a).blocks (c.targetSet a).blockMap) :
    cacheContents (c.accessCache a).2 = cacheContents c := by
  cases hfb : (c.targetSet a).findBlock (tagOf c.blockSize c.numSets a) with
  | none => rw [accessCache_miss c a hfb]
  | some b =>
      rw [accessCache_hit c a b hfb]
      unfold cacheContents
      dsimp only
      refine map_set_eq_of_eq blockContents c.sets _ _ (mkCacheSet 0) (hit_index_lt c a b hfb) ?_
      unfold blockContents
      exact Multiset.coe_eq_coe.mpr (moveToMRU_snd_perm (c.targetSet a) _ b hinv hfb)

theorem read_L1_contents (s : HierState) (addr : Nat)
    (hinv : ListMapInv (s.L1.targetSet addr).blocks (s.L1.targetSet addr).blockMap) :
    cacheContents (stepEvent s ⟨Op.r, addr⟩).L1 = cacheContents s.L1 := by
  cases hfb : (s.L1.targetSet addr).findBlock (tagOf s.L1.blockSize s.L1.numSets addr) with
  | none => rw [(stepEvent_r_miss_L1 s addr hfb)]; rfl
  | some b =>
      rw [(stepEvent_r_hit s addr b hfb).1]
      unfold cacheContents
      dsimp only
      refine map_set_eq_of_eq blockContents s.L1.sets _ _ (mkCacheSet 0) (hit_index_lt s.L1 addr b hfb) ?_
      unfold blockContents
      exact Multiset.coe_eq_coe.mpr (moveToMRU_snd_perm (s.L1.targetSet addr) _ b hinv hfb)



/-- C10: a read event leaves L1's numWrites, numWriteMisses and
numWriteBacks counters and the cache geometry unchanged, increments
numReads by one, and preserves the multiset of resident block values of
every L1 set (in particular every block's dirty flag): a read modifies at
most numReads, numReadMisses and the recency ordering. -/
theorem read_event_frame (s : HierState) (addr : Nat)
    (hinv : ListMapInv (s.L1.targetSet addr).blocks (s.L1.targetSet addr).blockMap) :
    (stepEvent s ⟨Op.r, addr⟩).L1.numWrites = s.L1.numWrites ∧
    (stepEvent s ⟨Op.r, addr⟩).L1.numWriteMisses = s.L1.numWriteMisses ∧
    (stepEvent s ⟨Op.r, addr⟩).L1.numWriteBacks = s.L1.numWriteBacks ∧
    (stepEvent s ⟨Op.r, addr⟩).L1.numReads = s.L1.numReads + 1 ∧
    (stepEvent s ⟨Op.r, addr⟩).L1.size = s.L1.size ∧
    (stepEvent s ⟨Op.r, addr⟩).L1.assoc = s.L1.assoc ∧
    (stepEvent s ⟨Op.r, addr⟩).L1.blockSize = s.L1.blockSize ∧
    (stepEvent s ⟨Op.r, addr⟩).L1.numSets = s.L1.numSets ∧
    cacheContents (stepEvent s ⟨Op.r, addr⟩).L1 = cacheContents s.L1 := by
  refine ⟨?_, ?_, ?_, ?_, ?_, ?_, ?_, ?_, read_L1_contents s addr hinv⟩ <;>
    cases hfb : (s.L1.targetSet addr).findBlock (tagOf s.L1.blockSize s.L1.numSets addr) with
    | none => rw [stepEvent_r_miss_L1 s addr hfb]
    | some b => rw [(stepEvent_r_hit s addr b hfb).1]

theorem read_event_frame_witness :
    ListMapInv ((specTraceInit.L1.targetSet 0).blocks) ((specTraceInit.L1.targetSet 0).blockMap) ∧
    (stepEvent specTraceInit ⟨Op.r, 0⟩).L1.numWrites = specTraceInit.L1.numWrites ∧
    (stepEvent specTraceInit ⟨Op.r, 0⟩).L1.numReads = specTraceInit.L1.numReads + 1 := by
  have h := read_event_frame specTraceInit 0 (by decide)
  exact ⟨by decide, h.1, h.2.2.2.1⟩

/-- C6: a read event never allocates a block into any cache: the block
contents of every L1 set, of every L2 set and of the victim buffer are
unchanged (as multisets of block values); only counters and recency
ordering can change, and allocation happens only through the write path. -/
theorem read_event_no_alloc (s : HierState) (addr : Nat)
    (hinv1 : ListMapInv (s.L1.targetSet addr).blocks (s.L1.targetSet addr).blockMap)
    (hinv2 : ∀ c2, s.L2 = some c2 → ListMapInv (c2.targetSet addr).blocks (c2.targetSet addr).blockMap)
    (hinv3 : ∀ vc, s.VC = some vc → ListMapInv vc.blocks vc.blockMap) :
    cacheContents (stepEvent s ⟨Op.r, addr⟩).L1 = cacheContents s.L1 ∧
    (stepEvent s ⟨Op.r, addr⟩).L2.map cacheContents = s.L2.map cacheContents ∧
    (stepEvent s ⟨Op.r, addr⟩).VC.map vcBlockContents = s.VC.map vcBlockContents := by
  refine ⟨read_L1_contents s addr hinv1, ?_⟩
  cases hfb : (s.L1.targetSet addr).findBlock (tagOf s.L1.blockSize s.L1.numSets addr) with
  | some b =>
      obtain ⟨-, h2, h3⟩ := stepEvent_r_hit s addr b hfb
      rw [h2, h3]
      exact ⟨rfl, rfl⟩
  | none =>
      cases hvc : s.VC with
      | none =>
          obtain ⟨-, h2, h3⟩ := stepEvent_r_miss_noVC s addr hfb hvc
          rw [h2, h3, hvc]
          exact ⟨rfl, rfl⟩
      | some vc =>
          cases hvb : vc.findBlock addr with
          | some vb =>
              obtain ⟨-, h2, h3⟩ := stepEvent_r_miss_vcHit s addr vc vb hfb hvc hvb
              rw [h2, h3]
              refine ⟨rfl, ?_⟩
              dsimp only [Option.map]
              have := Multiset.coe_eq_coe.mpr (vc_moveToMRU_snd_perm vc addr vb (hinv3 vc hvc) hvb)
              unfold vcBlockContents
              rw [this]
          | none =>
              cases hl2 : s.L2 with
              | none =>
                  obtain ⟨-, h2, h3⟩ := stepEvent_r_miss_vcMiss_noL2 s addr vc hfb hvc hvb hl2
                  rw [h2, h3, hvc, hl2]
                  exact ⟨rfl, rfl⟩
              | some l2 =>
                  obtain ⟨-, h2, h3⟩ := stepEvent_r_miss_vcMiss_L2 s addr vc l2 hfb hvc hvb hl2
                  rw [h2, h3, hvc]
                  refine ⟨?_, rfl⟩
                  dsimp only [Option.map]
                  rw [accessCache_contents l2 addr (hinv2 l2 hl2)]

theorem read_event_no_alloc_witness :
    cacheContents (stepEvent l2NoVcInit ⟨Op.r, 0⟩).L1 = cacheContents l2NoVcInit.L1 ∧
    (stepEvent l2NoVcInit ⟨Op.r, 0⟩).L2.map cacheContents = l2NoVcInit.L2.map cacheContents := by
  have h := read_event_no_alloc l2NoVcInit 0 (by decide)
    (by intro c2 hc2; have h9 := Option.some.inj hc2; subst h9; decide)
    (by intro vc hvc; cases hvc)
  exact ⟨h.1, h.2.1⟩



theorem stepEvent_L2_VC_unchanged (s : HierState) (e : Event)
    (hL2 : ∀ c2, s.L2 = some c2 → ∀ st ∈ c2.sets, st.blockMap = [])
    (hVC : ∀ vc, s.VC = some vc → vc.blockMap = []) :
    (stepEvent s e).L2 = s.L2 ∧ (stepEvent s e).VC = s.VC := by
  rcases e with ⟨op, address⟩
  cases op with
  | w =>
      cases hfb : (s.L1.targetSet address).findBlock (tagOf s.L1.blockSize s.L1.numSets address) with
      | none => exact ⟨(stepEvent_w_miss s address hfb).2.1, (stepEvent_w_miss s address hfb).2.2⟩
      | some b => exact ⟨(stepEvent_w_hit s address b hfb).2.1, (stepEvent_w_hit s address b hfb).2.2⟩
  | r =>
      cases hfb : (s.L1.targetSet address).findBlock (tagOf s.L1.blockSize s.L1.numSets address) with
      | some b => exact ⟨(stepEvent_r_hit s address b hfb).2.1, (stepEvent_r_hit s address b hfb).2.2⟩
      | none =>
          cases hvc : s.VC with
          | none => exact ⟨(stepEvent_r_miss_noVC s address hfb hvc).2.1,
                           (stepEvent_r_miss_noVC s address hfb hvc).2.2.trans hvc⟩
          | some vc =>
              have hvb : vc.findBlock address = none :=
                vc_findBlock_empty_map vc (hVC vc hvc) address
              cases hl2 : s.L2 with
              | none =>
                  obtain ⟨-, h2, h3⟩ := stepEvent_r_miss_vcMiss_noL2 s address vc hfb hvc hvb hl2
                  exact ⟨h2.trans hl2, h3.trans hvc⟩
              | some l2 =>
                  obtain ⟨-, h2, h3⟩ := stepEvent_r_miss_vcMiss_L2 s address vc l2 hfb hvc hvb hl2
                  refine ⟨?_, h3.trans hvc⟩
                  rw [h2, accessCache_of_empty_maps l2 address (hL2 l2 hl2)]



theorem simulate_L2_VC_frame : ∀ (events : List Event) (s : HierState),
    (∀ c2, s.L2 = some c2 → ∀ st ∈ c2.sets, st.blockMap = []) →
    (∀ vc, s.VC = some vc → vc.blockMap = []) →
    (simulate s events).L2 = s.L2 ∧ (simulate s events).VC = s.VC := by
  intro events
  induction events with
  | nil => intro s _ _; exact ⟨rfl, rfl⟩
  | cons e es ih =>
      intro s hL2 hVC
      have hstep := stepEvent_L2_VC_unchanged s e hL2 hVC
      have hL2' : ∀ c2, (stepEvent s e).L2 = some c2 → ∀ st ∈ c2.sets, st.blockMap = [] := by
        intro c2 hc2
        exact hL2 c2 (by rw [← hstep.1]; exact hc2)
      have hVC' : ∀ vc, (stepEvent s e).VC = some vc → vc.blockMap = [] := by
        intro vc hvc
        exact hVC vc (by rw [← hstep.2]; exact hvc)
      have hrec := ih (stepEvent s e) hL2' hVC'
      exact ⟨hrec.1.trans hstep.1, hrec.2.trans hstep.2⟩

/-- C9: starting from any state whose L2 tag maps and victim-cache tag map
are empty (as every constructed configuration is), the simulation loop
never inserts a block into L2 or into the victim cache: both components are
unchanged by the whole run, and every victim-buffer lookup and every L2
access returns a miss. -/
theorem simulate_never_fills_L2_or_VC (s : HierState) (events : List Event)
    (hL2 : ∀ c2, s.L2 = some c2 → ∀ st ∈ c2.sets, st.blockMap = [])
    (hVC : ∀ vc, s.VC = some vc → vc.blockMap = []) :
    (simulate s events).L2 = s.L2 ∧ (simulate s events).VC = s.VC ∧
    (∀ c2, s.L2 = some c2 → ∀ a, (c2.accessCache a).1 = none) ∧
    (∀ vc, s.VC = some vc → ∀ a, vc.findBlock a = none) := by
  obtain ⟨h1, h2⟩ := simulate_L2_VC_frame events s hL2 hVC
  refine ⟨h1, h2, ?_, ?_⟩
  · intro c2 hc2 a
    rw [accessCache_of_empty_maps c2 a (hL2 c2 hc2)]
  · intro vc hvc a
    exact vc_findBlock_empty_map vc (hVC vc hvc) a

theorem simulate_never_fills_L2_or_VC_witness :
    (simulate ⟨mkCache 32 1 32, some (mkCache 64 1 32), some (mkVictimCache 2)⟩
      [⟨Op.r, 0⟩, ⟨Op.w, 0⟩, ⟨Op.r, 0x20⟩]).L2 = some (mkCache 64 1 32) ∧
    (simulate ⟨mkCache 32 1 32, some (mkCache 64 1 32), some (mkVictimCache 2)⟩
      [⟨Op.r, 0⟩, ⟨Op.w, 0⟩, ⟨Op.r, 0x20⟩]).VC = some (mkVictimCache 2) := by
  have h := simulate_never_fills_L2_or_VC
    ⟨mkCache 32 1 32, some (mkCache 64 1 32), some (mkVictimCache 2)⟩
    [⟨Op.r, 0⟩, ⟨Op.w, 0⟩, ⟨Op.r, 0x20⟩]
    (by intro c2 hc2; have h9 := Option.some.inj hc2; subst h9; decide)
    (by intro vc hvc; cases hvc; decide)
  exact ⟨h.1, h.2.1⟩

/-- C8 amended: the program performs no configuration validation; numSets
is computed as size / (assoc * blockSize) by truncating division, the
simulation processes events regardless, and size equals
numSets * assoc * blockSize exactly when assoc * blockSize divides size. -/
theorem mkCache_no_validation (size assoc blockSize addr : Nat) :
    (simulate ⟨mkCache size assoc blockSize, none, none⟩ [⟨Op.r, addr⟩]).L1.numReads = 1 ∧
    ((assoc * blockSize) ∣ size ↔
      (mkCache size assoc blockSize).numSets * (assoc * blockSize) = size) := by
  constructor
  · show (stepEvent ⟨mkCache size assoc blockSize, none, none⟩ ⟨Op.r, addr⟩).L1.numReads = 1
    cases hfb : ((⟨mkCache size assoc blockSize, none, none⟩ : HierState).L1.targetSet addr).findBlock
        (tagOf (mkCache size assoc blockSize).blockSize (mkCache size assoc blockSize).numSets addr) with
    | none => rw [stepEvent_r_miss_L1 _ addr hfb]; rfl
    | some b => rw [(stepEvent_r_hit _ addr b hfb).1]; rfl
  · constructor
    · intro hdvd
      show size / (assoc * blockSize) * (assoc * blockSize) = size
      exact Nat.div_mul_cancel hdvd
    · intro heq
      exact ⟨(mkCache size assoc blockSize).numSets, heq.symm.trans (Nat.mul_comm _ _)⟩

end CacheSim
